import Mathlib

/-!
# Verification of the permasquare publish pipeline

Shallow embedding of the crawler (`src/service/extract.ts`), the publisher and
manifest builder (`src/service/deploy.ts`) and the path-variation generator of
the earlier deployer iteration, together with proofs and refutations of the
frozen claims about them.

Strings are manipulated the way JavaScript does (by code unit); we mirror the
relevant JS string methods on the underlying character list of a Lean `String`.
JS objects used as dictionaries (`fileMapping`, `lookup`, `paths`) are embedded
as insertion-ordered association lists: assignment replaces the value in place
for an existing key and appends otherwise, exactly like property assignment.
-/

namespace Permasquare

/-! ## JS string primitives -/

/-- JS `s.startsWith(p)` (by code unit). -/
def jsStartsWith (s p : String) : Bool := p.data.isPrefixOf s.data

/-- JS `s.endsWith(p)` (by code unit). -/
def jsEndsWith (s p : String) : Bool := p.data.isSuffixOf s.data

/-- JS `s.substring(n)` / `s.slice(n)` for a nonnegative `n`. -/
def jsDrop (s : String) (n : Nat) : String := ⟨s.data.drop n⟩

/-- JS `s.slice(0, -n)`. -/
def jsDropRight (s : String) (n : Nat) : String := ⟨s.data.take (s.data.length - n)⟩

/-- Whitespace test used by JS `trim`. -/
def jsIsSpace (c : Char) : Bool := c = ' ' ∨ c = '\t' ∨ c = '\n' ∨ c = '\r'

/-- JS `s.trim()`. -/
def jsTrim (s : String) : String :=
  ⟨((s.data.dropWhile jsIsSpace).reverse.dropWhile jsIsSpace).reverse⟩

/-- Helper for JS `s.includes(p)`: substring occurrence on char lists. -/
def listContainsSub (pat : List Char) : List Char → Bool
  | [] => pat.isEmpty
  | c :: rest => pat.isPrefixOf (c :: rest) || listContainsSub pat rest

/-- JS `s.includes(p)`. -/
def jsIncludes (s p : String) : Bool := listContainsSub p.data s.data

/-- Replace the first occurrence of `pat` (nonempty) in a char list. -/
def replaceFirstAux (pat repl : List Char) : List Char → List Char
  | [] => []
  | c :: rest =>
      if pat.isPrefixOf (c :: rest) then repl ++ (c :: rest).drop pat.length
      else c :: replaceFirstAux pat repl rest

/-- JS `s.replace(pat, repl)` with a plain-string pattern: first occurrence only. -/
def jsReplaceFirst (s pat repl : String) : String :=
  if pat.data.isEmpty then ⟨repl.data ++ s.data⟩
  else ⟨replaceFirstAux pat.data repl.data s.data⟩

/-! ## JS objects as insertion-ordered association lists -/

/-- JS property assignment `o[k] = v`: replace in place or append. -/
def jsUpdate : List (String × String) → String → String → List (String × String)
  | [], k, v => [(k, v)]
  | (k', v') :: rest, k, v =>
      if k' = k then (k, v) :: rest else (k', v') :: jsUpdate rest k v

/-- JS property read `o[k]`. -/
def jsGet : List (String × String) → String → Option String
  | [], _ => none
  | (k', v') :: rest, k => if k' = k then some v' else jsGet rest k

/-- The keys of a JS object, in insertion order (`Object.keys`). -/
def jsKeys (o : List (String × String)) : List String := o.map Prod.fst

/-! ## Manifest builder (`createArweaveManifest`, src/service/deploy.ts) -/

/-- The manifest record of `createArweaveManifest`:
`{ manifest, version, index: { path }, paths }`. -/
structure ArweaveManifest where
  manifest : String
  version : String
  indexPath : String
  paths : List (String × String)
  deriving Repr, DecidableEq

/-- The per-entry key transformation of `createArweaveManifest`:
`path.startsWith('/') ? path.substring(1) : path`. -/
def manifestKey (path : String) : String :=
  if jsStartsWith path "/" then jsDrop path 1 else path

/-- `createArweaveManifest` from src/service/deploy.ts: strips one leading
slash from each mapping key and emits the fixed index entry `index.html`. -/
def createArweaveManifest (fileMapping : List (String × String)) : ArweaveManifest :=
  { manifest := "arweave/paths"
    version := "0.1.0"
    indexPath := "index.html"
    paths := fileMapping.foldl (fun acc e => jsUpdate acc (manifestKey e.1) e.2) [] }

/-! ### Association-list facts -/

theorem jsUpdate_ne_nil (o : List (String × String)) (k v : String) :
    jsUpdate o k v ≠ [] := by
  cases o with
  | nil => simp [jsUpdate]
  | cons e rest =>
      obtain ⟨k', v'⟩ := e
      simp only [jsUpdate]
      split <;> simp

theorem mem_jsKeys_jsUpdate {o : List (String × String)} {k k' v : String} :
    k ∈ jsKeys (jsUpdate o k' v) ↔ k ∈ jsKeys o ∨ k = k' := by
  induction o with
  | nil => simp [jsUpdate, jsKeys]
  | cons e rest ih =>
      obtain ⟨k₀, v₀⟩ := e
      by_cases h₀ : k₀ = k'
      · subst h₀
        simp [jsUpdate, jsKeys]
        tauto
      · simp only [jsUpdate, if_neg h₀, jsKeys, List.map_cons, List.mem_cons] at ih ⊢
        tauto

theorem jsGet_jsUpdate_self (o : List (String × String)) (k v : String) :
    jsGet (jsUpdate o k v) k = some v := by
  induction o with
  | nil => simp [jsUpdate, jsGet]
  | cons e rest ih =>
      obtain ⟨k₀, v₀⟩ := e
      by_cases h₀ : k₀ = k
      · simp [jsUpdate, jsGet, h₀]
      · simp [jsUpdate, jsGet, h₀, ih]

theorem jsGet_jsUpdate_ne (o : List (String × String)) {k k' : String} (v : String)
    (h : k ≠ k') : jsGet (jsUpdate o k' v) k = jsGet o k := by
  have h' : k' ≠ k := Ne.symm h
  induction o with
  | nil => simp [jsUpdate, jsGet, h']
  | cons e rest ih =>
      obtain ⟨k₀, v₀⟩ := e
      by_cases h₀ : k₀ = k'
      · subst h₀
        simp [jsUpdate, jsGet, h']
      · by_cases hk : k₀ = k
        · simp [jsUpdate, jsGet, h₀, hk, h]
        · simp [jsUpdate, jsGet, h₀, hk, ih]

theorem isSome_jsGet_jsUpdate {o : List (String × String)} {k k' v : String}
    (h : (jsGet o k).isSome = true) : (jsGet (jsUpdate o k' v) k).isSome = true := by
  by_cases hk : k = k'
  · subst hk
    simp [jsGet_jsUpdate_self]
  · rw [jsGet_jsUpdate_ne o v hk]
    exact h

theorem mem_jsKeys_manifest_paths {fileMapping : List (String × String)} {k : String} :
    k ∈ jsKeys (createArweaveManifest fileMapping).paths ↔
      ∃ e ∈ fileMapping, k = manifestKey e.1 := by
  have general : ∀ (l : List (String × String)) (acc : List (String × String)),
      k ∈ jsKeys (l.foldl (fun acc e => jsUpdate acc (manifestKey e.1) e.2) acc) ↔
        k ∈ jsKeys acc ∨ ∃ e ∈ l, k = manifestKey e.1 := by
    intro l
    induction l with
    | nil => simp
    | cons e rest ih =>
        intro acc
        rw [List.foldl_cons, ih, mem_jsKeys_jsUpdate]
        simp only [List.mem_cons]
        constructor
        · rintro (⟨h | h⟩ | ⟨e', he', hk⟩)
          · exact Or.inl h
          · exact Or.inr ⟨e, Or.inl rfl, h⟩
          · exact Or.inr ⟨e', Or.inr he', hk⟩
        · rintro (h | ⟨e', (rfl | he'), hk⟩)
          · exact Or.inl (Or.inl h)
          · exact Or.inl (Or.inr hk)
          · exact Or.inr ⟨e', he', hk⟩
  simp only [createArweaveManifest]
  rw [general fileMapping []]
  simp [jsKeys]

theorem foldl_jsUpdate_ne_nil (f : String × String → String) :
    ∀ (l : List (String × String)) (acc : List (String × String)), acc ≠ [] →
      l.foldl (fun acc e => jsUpdate acc (f e) e.2) acc ≠ [] := by
  intro l
  induction l with
  | nil => intro acc h; simpa using h
  | cons e rest ih =>
      intro acc _
      exact ih (jsUpdate acc (f e) e.2) (jsUpdate_ne_nil acc (f e) e.2)

theorem manifestKey_startsWith_slash_eq_false {p : String}
    (h : jsStartsWith p "//" = false) : jsStartsWith (manifestKey p) "/" = false := by
  unfold manifestKey
  by_cases hs : jsStartsWith p "/" = true
  · rw [if_pos hs]
    unfold jsStartsWith at hs h ⊢
    rw [show ("/" : String).data = ['/'] from rfl] at hs ⊢
    rw [show ("//" : String).data = ['/', '/'] from rfl] at h
    cases hp : p.data with
    | nil => rw [hp] at hs; simp [List.isPrefixOf] at hs
    | cons c t =>
        rw [hp] at hs h
        have hc : c = '/' := by
          by_contra hcc
          simp [List.isPrefixOf, Ne.symm hcc] at hs
        subst hc
        have ht : List.isPrefixOf ['/'] t = false := by
          simpa [List.isPrefixOf] using h
        simpa [jsDrop, hp] using ht
  · rw [if_neg hs]
    simpa using hs

/-- Claim C1 (corrected), counterexample: `createArweaveManifest` applied to the
empty Path→Identifier map returns an ordinary manifest whose `paths` object is
empty — no `EmptyManifest` error exists in the code. -/
theorem createArweaveManifest_empty_counterexample :
    createArweaveManifest [] =
      { manifest := "arweave/paths", version := "0.1.0",
        indexPath := "index.html", paths := [] } := rfl

/-- Claim C1 (amended): building the manifest is a total function with no error
path; its `paths` object is empty exactly when the Path→Identifier map is
empty, so an empty map yields a manifest with empty `paths` (and the constant
index entry), not an error. -/
theorem createArweaveManifest_paths_empty_iff (fm : List (String × String)) :
    (createArweaveManifest fm).paths = [] ↔ fm = [] := by
  constructor
  · intro h
    cases fm with
    | nil => rfl
    | cons e rest =>
        exfalso
        have hne : (createArweaveManifest (e :: rest)).paths ≠ [] := by
          simp only [createArweaveManifest, List.foldl_cons]
          exact foldl_jsUpdate_ne_nil (fun e => manifestKey e.1) rest
            (jsUpdate [] (manifestKey e.1) e.2) (jsUpdate_ne_nil [] (manifestKey e.1) e.2)
        exact hne h
  · rintro rfl
    rfl

/-- Claim C5 (corrected), counterexample: for the map `{/about.html ↦ T1}` the
manifest's index entry is the constant `index.html`, which is not among the
manifest's route keys, so the builder neither falls back to another path nor
guarantees the index entry names a present route. -/
theorem createArweaveManifest_index_counterexample :
    (createArweaveManifest [("/about.html", "T1")]).indexPath = "index.html" ∧
      "index.html" ∉ jsKeys (createArweaveManifest [("/about.html", "T1")]).paths := by
  constructor
  · rfl
  · decide

/-- Claim C5 (amended): the manifest builder always emits the constant index
entry `index.html`, regardless of the contents of the Path→Identifier map; it
performs no root-index preference and no fallback selection. -/
theorem createArweaveManifest_index_constant (fm : List (String × String)) :
    (createArweaveManifest fm).indexPath = "index.html" := rfl

/-- Claim C6 (corrected), counterexample: the builder strips only a single
leading slash, so the map key `//a` produces the manifest path key `/a`, which
begins with `/`. -/
theorem createArweaveManifest_doubleslash_counterexample :
    jsKeys (createArweaveManifest [("//a", "T")]).paths = ["/a"] ∧
      jsStartsWith "/a" "/" = true := by
  constructor
  · decide
  · decide

/-- Claim C6 (amended): provided no key of the Path→Identifier map begins with
a double slash `//`, no key of the manifest's `paths` object begins with `/`. -/
theorem createArweaveManifest_no_leading_slash (fm : List (String × String))
    (h : ∀ e ∈ fm, jsStartsWith e.1 "//" = false) :
    ∀ k ∈ jsKeys (createArweaveManifest fm).paths, jsStartsWith k "/" = false := by
  intro k hk
  obtain ⟨e, he, rfl⟩ := mem_jsKeys_manifest_paths.mp hk
  exact manifestKey_startsWith_slash_eq_false (h e he)

/-- Witness for C6: a concrete two-entry map satisfying the hypothesis, and the
resulting manifest keys carrying no leading slash. -/
theorem createArweaveManifest_no_leading_slash_witness :
    (∀ e ∈ [("/a", "T"), ("b", "U")], jsStartsWith e.1 "//" = false) ∧
      ∀ k ∈ jsKeys (createArweaveManifest [("/a", "T"), ("b", "U")]).paths,
        jsStartsWith k "/" = false :=
  ⟨by decide, createArweaveManifest_no_leading_slash [("/a", "T"), ("b", "U")] (by decide)⟩

/-! ## URL rewriting (`replaceUrlsWithTxIds` / `tryReplaceUrl`, src/service/deploy.ts) -/

/-- The inner `normalizeUrl` of `replaceUrlsWithTxIds`: trim, remove one
leading slash, one trailing slash, and the first occurrence of `.html` when
the string ends with it. -/
def normalizeUrl (url : String) : String :=
  if url = "" ∨ jsTrim url = "" then ""
  else
    let n := jsTrim url
    let n := if jsStartsWith n "/" then jsDrop n 1 else n
    let n := if jsEndsWith n "/" then jsDropRight n 1 else n
    let n := if jsEndsWith n ".html" then jsReplaceFirst n ".html" "" else n
    n

/-- The lookup table of `replaceUrlsWithTxIds`: every mapping entry keyed by
its normalized path, skipping entries whose normalized key is empty. -/
def buildDeployLookup (fileMapping : List (String × String)) : List (String × String) :=
  fileMapping.foldl
    (fun acc e =>
      let k := normalizeUrl e.1
      if k = "" then acc else jsUpdate acc k e.2) []

/-- JS `a || b` on possibly-absent strings: an empty string is falsy. -/
def jsOrString (a b : Option String) : Option String :=
  match a with
  | some s => if s = "" then b else some s
  | none => b

/-- Character class `[A-Za-z0-9+/=\-]` of the dry-run fake-URL regex. -/
def b64UrlChar (c : Char) : Bool :=
  ('A' ≤ c ∧ c ≤ 'Z') ∨ ('a' ≤ c ∧ c ≤ 'z') ∨ ('0' ≤ c ∧ c ≤ '9') ∨
    c = '+' ∨ c = '/' ∨ c = '=' ∨ c = '-'

/-- Value of a base64 character as used by `Buffer.from(s, 'base64')`
(base64url characters are accepted too; padding and foreign characters are
skipped). -/
def b64Val (c : Char) : Option Nat :=
  if 'A' ≤ c ∧ c ≤ 'Z' then some (c.toNat - 65)
  else if 'a' ≤ c ∧ c ≤ 'z' then some (c.toNat - 97 + 26)
  else if '0' ≤ c ∧ c ≤ '9' then some (c.toNat - 48 + 52)
  else if c = '+' ∨ c = '-' then some 62
  else if c = '/' ∨ c = '_' then some 63
  else none

/-- Bit-accumulating base64 decoder (the byte stream of
`Buffer.from(s, 'base64')`). -/
def b64DecodeAux : List Char → Nat → Nat → List Nat
  | [], _, _ => []
  | c :: rest, acc, bits =>
      match b64Val c with
      | none => b64DecodeAux rest acc bits
      | some v =>
          let acc' := acc * 64 + v
          let bits' := bits + 6
          if 8 ≤ bits' then
            (acc' / 2 ^ (bits' - 8)) % 256 :: b64DecodeAux rest (acc' % 2 ^ (bits' - 8)) (bits' - 8)
          else b64DecodeAux rest acc' bits'

/-- `Buffer.from(s, 'base64').toString()` for ASCII payloads. -/
def base64DecodeString (s : String) : String :=
  ⟨(b64DecodeAux s.data 0 0).map Char.ofNat⟩

/-- The regex `^https?:\/\/arweave\.net\/fake_([A-Za-z0-9+/=\-]+)$` of
`tryReplaceUrl`: returns the captured group when the URL is a dry-run fake
identifier URL. -/
def fakeArweaveMatch (url : String) : Option String :=
  let tryPre : String → Option String := fun pre =>
    if jsStartsWith url pre then
      let rest := jsDrop url pre.data.length
      if rest ≠ "" ∧ rest.data.all b64UrlChar then some rest else none
    else none
  match tryPre "http://arweave.net/fake_" with
  | some r => some r
  | none => tryPre "https://arweave.net/fake_"

/-- The skip conditions of `tryReplaceUrl`: external URLs, special protocols,
fragments, data URLs, and anything mentioning the storage gateway host. -/
def deploySkipUrl (url : String) : Bool :=
  jsStartsWith url "http://" || jsStartsWith url "https://" || jsStartsWith url "//" ||
    jsStartsWith url "mailto:" || jsStartsWith url "tel:" || jsStartsWith url "ftp:" ||
    jsStartsWith url "#" || jsStartsWith url "javascript:" || jsStartsWith url "data:" ||
    jsIncludes url "arweave.net"

/-- `decoded.replace(/^\//, '')`. -/
def stripOneLeadingSlash (s : String) : String :=
  if jsStartsWith s "/" then jsDrop s 1 else s

/-- Prefix of a string up to (excluding) the first `?` or `#`, the first field
of `cleanUrl.split(/[?#]/)`. -/
def untilQueryOrFragment (s : List Char) : List Char :=
  s.takeWhile (fun c => ¬(c = '?' ∨ c = '#'))

/-- `tryReplaceUrl` from `replaceUrlsWithTxIds` (src/service/deploy.ts):
attempts to map a reference string to its storage identifier URL, handling
dry-run fake links first, skipping external/special URLs, then looking up the
normalized reference (with a `docs/` prefix stripped) in the lookup table. -/
def tryReplaceUrl (lookup : List (String × String)) (url : String) : Option String :=
  if url = "" ∨ jsTrim url = "" then none
  else
    let fakeResult : Option String :=
      match fakeArweaveMatch url with
      | some b64 =>
          let decoded := base64DecodeString b64
          let normalizedDecoded := normalizeUrl (stripOneLeadingSlash decoded)
          match jsOrString (jsGet lookup normalizedDecoded) (jsGet lookup (normalizeUrl decoded)) with
          | some tx => if tx = "" then none else some ("https://arweave.net/" ++ tx)
          | none => none
      | none => none
    match fakeResult with
    | some r => some r
    | none =>
        if deploySkipUrl url then none
        else
          let cleanUrl := jsTrim url
          let baseUrl : String := ⟨untilQueryOrFragment cleanUrl.data⟩
          let queryAndFragment := jsDrop cleanUrl baseUrl.data.length
          let normalizedUrl := normalizeUrl baseUrl
          let lookupKey :=
            if jsStartsWith normalizedUrl "docs/" then jsDrop normalizedUrl 5 else normalizedUrl
          match jsGet lookup lookupKey with
          | some tx => if tx = "" then none else some ("https://arweave.net/" ++ tx ++ queryAndFragment)
          | none => none

/-- The replacement callback of the CSS `url()` pattern in
`replaceUrlsWithTxIds` (used verbatim by Pass 2 on stylesheet content): the
matched URL group is swapped for its replacement when `tryReplaceUrl`
succeeds and kept as matched otherwise. -/
def rewriteCssUrlRef (lookup : List (String × String)) (url : String) : String :=
  match tryReplaceUrl lookup url with
  | some r => r
  | none => url

theorem jsStartsWith_trans {s a b : String} (h1 : jsStartsWith s a = true)
    (h2 : jsStartsWith a b = true) : jsStartsWith s b = true := by
  unfold jsStartsWith at *
  rw [List.isPrefixOf_iff_prefix] at *
  exact h2.trans h1

/-- Claim C2 (code bug), evaluation at the failing input: with the image
stored under canonical path `/img/logo.png` and its pass-1 identifier `TX1` in
the mapping, the Pass-2 CSS rewrite leaves the relative reference
`../img/logo.png` (written from `/css/site.css`) unchanged — the lookup key is
never resolved against the stylesheet's own path — even though the same lookup
resolves the absolute form `/img/logo.png` to the pass-1 identifier. -/
theorem pass2_relative_ref_not_resolved :
    rewriteCssUrlRef (buildDeployLookup [("/img/logo.png", "TX1")]) "../img/logo.png" =
        "../img/logo.png" ∧
      jsGet (buildDeployLookup [("/img/logo.png", "TX1")]) "img/logo.png" = some "TX1" ∧
      tryReplaceUrl (buildDeployLookup [("/img/logo.png", "TX1")]) "/img/logo.png" =
        some "https://arweave.net/TX1" := by
  refine ⟨by decide, by decide, by decide⟩

/-- Claim C4 (corrected), counterexample: a dry-run fake identifier URL is an
absolute URL on the storage gateway host, yet the rewrite alters it —
`https://arweave.net/fake_aW1nL2xvZ28ucG5n` (base64 of `img/logo.png`) is
replaced by the real identifier URL of `/img/logo.png`. -/
theorem tryReplaceUrl_fake_url_altered :
    tryReplaceUrl (buildDeployLookup [("/img/logo.png", "REALTX")])
        "https://arweave.net/fake_aW1nL2xvZ28ucG5n" =
      some "https://arweave.net/REALTX" := by
  decide

/-- Claim C4 (amended): every reference that is an absolute URL on the storage
gateway host and is not a dry-run `fake_` placeholder is left unchanged by the
rewrite (`tryReplaceUrl` returns no replacement), for every lookup table; in
particular a second rewrite pass over content whose references are real
identifier URLs is the identity on those references. -/
theorem tryReplaceUrl_arweave_url_stable (lookup : List (String × String)) (url : String)
    (h1 : jsStartsWith url "https://arweave.net/" = true)
    (h2 : fakeArweaveMatch url = none) :
    tryReplaceUrl lookup url = none := by
  unfold tryReplaceUrl
  split
  · rfl
  · rw [h2]
    have hsk : deploySkipUrl url = true := by
      have hh : jsStartsWith url "https://" = true :=
        jsStartsWith_trans h1 (by decide)
      simp [deploySkipUrl, hh]
    simp [hsk]

/-- Witness for C4: a concrete real-identifier URL on the gateway host, with a
nonempty lookup table, is returned unchanged. -/
theorem tryReplaceUrl_arweave_url_stable_witness :
    jsStartsWith "https://arweave.net/AbC123xyz" "https://arweave.net/" = true ∧
      fakeArweaveMatch "https://arweave.net/AbC123xyz" = none ∧
      tryReplaceUrl (buildDeployLookup [("/img/logo.png", "TX1")])
          "https://arweave.net/AbC123xyz" = none :=
  ⟨by decide, by decide,
    tryReplaceUrl_arweave_url_stable (buildDeployLookup [("/img/logo.png", "TX1")])
      "https://arweave.net/AbC123xyz" (by decide) (by decide)⟩

/-! ## Publisher passes (`deployWithTurbo`, src/service/deploy.ts) -/

/-- Split of a char list on a separator character (JS `s.split(sep)`). -/
def splitOnCharAux (sep : Char) : List Char → List Char → List (List Char)
  | [], cur => [cur.reverse]
  | c :: rest, cur =>
      if c = sep then cur.reverse :: splitOnCharAux sep rest []
      else splitOnCharAux sep rest (c :: cur)

/-- JS `s.split(sep)` for a single-character separator. -/
def jsSplitChar (s : String) (sep : Char) : List String :=
  (splitOnCharAux sep s.data []).map (fun l => ⟨l⟩)

/-- JS `s.toLowerCase()` (ASCII). -/
def jsToLower (s : String) : String := ⟨s.data.map Char.toLower⟩

/-- `getMimeType` from src/service/deploy.ts: extension of
`path.split('.').pop()`, looked up in the fixed MIME table. -/
def getMimeType (path : String) : String :=
  let ext := jsToLower ((jsSplitChar path '.').getLastD "")
  if ext = "html" then "text/html"
  else if ext = "htm" then "text/html"
  else if ext = "css" then "text/css"
  else if ext = "js" then "application/javascript"
  else if ext = "json" then "application/json"
  else if ext = "png" then "image/png"
  else if ext = "jpg" then "image/jpeg"
  else if ext = "jpeg" then "image/jpeg"
  else if ext = "gif" then "image/gif"
  else if ext = "svg" then "image/svg+xml"
  else if ext = "webp" then "image/webp"
  else if ext = "ico" then "image/x-icon"
  else if ext = "woff" then "font/woff"
  else if ext = "woff2" then "font/woff2"
  else if ext = "ttf" then "font/ttf"
  else if ext = "eot" then "application/vnd.ms-fontobject"
  else if ext = "otf" then "font/otf"
  else "application/octet-stream"

/-- One publisher pass over a list of canonical paths: each upload attempt
either yields an identifier (recorded with `fileMapping[path] = txId`) or
fails (caught and logged; the mapping is left untouched). The upload outcome
is an oracle from path to optional identifier. -/
def runPass (oc : String → Option String) (paths : List String)
    (m : List (String × String)) : List (String × String) :=
  paths.foldl
    (fun acc p =>
      match oc p with
      | some tx => jsUpdate acc p tx
      | none => acc) m

/-- `fileMapping` after Pass 1 of `deployWithTurbo` (non-CSS assets uploaded
into the initially empty object). -/
def fileMappingPass1 (assetPaths : List String) (oc1 : String → Option String) :
    List (String × String) :=
  runPass oc1 (assetPaths.filter fun q => getMimeType q != "text/css") []

/-- `fileMapping` after Pass 2 (CSS assets rewritten and uploaded). -/
def fileMappingPass2 (assetPaths : List String) (oc1 oc2 : String → Option String) :
    List (String × String) :=
  runPass oc2 (assetPaths.filter fun q => getMimeType q == "text/css")
    (fileMappingPass1 assetPaths oc1)

/-- `fileMapping` after Pass 3a (raw HTML pages uploaded for provisional
identifiers). -/
def fileMappingPass3a (assetPaths pagePaths : List String)
    (oc1 oc2 oc3 : String → Option String) : List (String × String) :=
  runPass oc3 pagePaths (fileMappingPass2 assetPaths oc1 oc2)

/-- `fileMapping` after Pass 3b (rewritten HTML pages re-uploaded; final
state). -/
def fileMappingPass3b (assetPaths pagePaths : List String)
    (oc1 oc2 oc3 oc4 : String → Option String) : List (String × String) :=
  runPass oc4 pagePaths (fileMappingPass3a assetPaths pagePaths oc1 oc2 oc3)

/-- The `fileMapping` object of `deployWithTurbo` after each of its ordered
passes: stage 0 is the initial empty object; stage 1 after Pass 1 (non-CSS
assets), stage 2 after Pass 2 (CSS assets), stage 3 after Pass 3a (raw HTML
pages), stage 4 (and beyond) after Pass 3b (rewritten HTML pages). Each pass
has its own upload-outcome oracle. -/
def deployStage (assetPaths pagePaths : List String)
    (oc1 oc2 oc3 oc4 : String → Option String) : Nat → List (String × String)
  | 0 => []
  | 1 => fileMappingPass1 assetPaths oc1
  | 2 => fileMappingPass2 assetPaths oc1 oc2
  | 3 => fileMappingPass3a assetPaths pagePaths oc1 oc2 oc3
  | _ + 4 => fileMappingPass3b assetPaths pagePaths oc1 oc2 oc3 oc4

theorem runPass_preserves (oc : String → Option String) (paths : List String) :
    ∀ (m : List (String × String)) (k : String),
      (jsGet m k).isSome = true → (jsGet (runPass oc paths m) k).isSome = true := by
  induction paths with
  | nil => intro m k h; simpa [runPass] using h
  | cons p rest ih =>
      intro m k h
      simp only [runPass, List.foldl_cons]
      cases hoc : oc p with
      | none => exact ih m k h
      | some tx => exact ih (jsUpdate m p tx) k (isSome_jsGet_jsUpdate h)

theorem deployStage_succ_preserves (assetPaths pagePaths : List String)
    (oc1 oc2 oc3 oc4 : String → Option String) (i : Nat) (k : String)
    (h : (jsGet (deployStage assetPaths pagePaths oc1 oc2 oc3 oc4 i) k).isSome = true) :
    (jsGet (deployStage assetPaths pagePaths oc1 oc2 oc3 oc4 (i + 1)) k).isSome = true := by
  match i with
  | 0 =>
      show (jsGet (fileMappingPass1 assetPaths oc1) k).isSome = true
      exact runPass_preserves _ _ _ k h
  | 1 =>
      show (jsGet (fileMappingPass2 assetPaths oc1 oc2) k).isSome = true
      exact runPass_preserves _ _ _ k h
  | 2 =>
      show (jsGet (fileMappingPass3a assetPaths pagePaths oc1 oc2 oc3) k).isSome = true
      exact runPass_preserves _ _ _ k h
  | 3 =>
      show (jsGet (fileMappingPass3b assetPaths pagePaths oc1 oc2 oc3 oc4) k).isSome = true
      exact runPass_preserves _ _ _ k h
  | n + 4 =>
      show (jsGet (fileMappingPass3b assetPaths pagePaths oc1 oc2 oc3 oc4) k).isSome = true
      exact h

/-- Claim C7 (confirmed): across the publisher's ordered passes the set of
canonical paths in the Path→Identifier map never shrinks — every path present
in the mapping after some pass is still present after every later pass; passes
only add entries or replace identifiers of existing entries. -/
theorem deploy_fileMapping_monotone (assetPaths pagePaths : List String)
    (oc1 oc2 oc3 oc4 : String → Option String) (i j : Nat) (hij : i ≤ j) (k : String)
    (h : (jsGet (deployStage assetPaths pagePaths oc1 oc2 oc3 oc4 i) k).isSome = true) :
    (jsGet (deployStage assetPaths pagePaths oc1 oc2 oc3 oc4 j) k).isSome = true := by
  induction j with
  | zero =>
      have : i = 0 := Nat.le_zero.mp hij
      subst this
      exact h
  | succ j ih =>
      rcases Nat.lt_or_ge i (j + 1) with hlt | hge
      · exact deployStage_succ_preserves assetPaths pagePaths oc1 oc2 oc3 oc4 j k
          (ih (Nat.lt_succ_iff.mp hlt))
      · have : i = j + 1 := Nat.le_antisymm hij hge
        subst this
        exact h

/-- Witness for C7: a non-CSS asset recorded in Pass 1 is still present after
Pass 3b in a concrete run with one asset of each kind and one page. -/
theorem deploy_fileMapping_monotone_witness :
    (1 : Nat) ≤ 4 ∧
      (jsGet (deployStage ["/logo.png", "/site.css"] ["/index.html"] (fun _ => some "T1")
          (fun _ => some "T2") (fun _ => some "T3") (fun _ => some "T4") 1) "/logo.png").isSome
        = true ∧
      (jsGet (deployStage ["/logo.png", "/site.css"] ["/index.html"] (fun _ => some "T1")
          (fun _ => some "T2") (fun _ => some "T3") (fun _ => some "T4") 4) "/logo.png").isSome
        = true :=
  ⟨by decide, by decide,
    deploy_fileMapping_monotone ["/logo.png", "/site.css"] ["/index.html"] (fun _ => some "T1")
      (fun _ => some "T2") (fun _ => some "T3") (fun _ => some "T4") 1 4 (by decide)
      "/logo.png" (by decide)⟩

/-! ## Site content partition (`getSiteContent`, src/service/deploy.ts) -/

/-- The page-file test of `getSiteContent`: a key ending in `.html` or
`.htm`. -/
def isPageFileKey (k : String) : Bool := jsEndsWith k ".html" || jsEndsWith k ".htm"

/-- `filePath.replace(hostname + "/", "/")`: the hostname prefix of a blob key
is swapped (first occurrence) for a single slash. -/
def relativeSitePath (hostname : String) (k : String) : String :=
  jsReplaceFirst k (hostname ++ "/") "/"

/-- One step of the pages/assets partition loop of `getSiteContent`. -/
def partitionStep (pred : String → Bool) (rel : String → String)
    (acc : List (String × String) × List (String × String)) (fc : String × String) :
    List (String × String) × List (String × String) :=
  if pred fc.1 then (jsUpdate acc.1 (rel fc.1) fc.2, acc.2)
  else (acc.1, jsUpdate acc.2 (rel fc.1) fc.2)

/-- `getSiteContent` from src/service/deploy.ts, applied to the listed keys
with their retrieved contents: splits every retrieved file into the `pages`
map when its key is among the `.html`/`.htm` page files and into the `assets`
map otherwise (the separately computed `assetFiles` filter of the source,
which excludes `manifest.json`, is never consulted by this loop). -/
def getSiteContent (hostname : String) (files : List (String × String)) :
    List (String × String) × List (String × String) :=
  let allFiles := files.map Prod.fst
  let pageFiles := allFiles.filter isPageFileKey
  files.foldl
    (partitionStep (fun f => pageFiles.any (fun pf => pf == f)) (relativeSitePath hostname))
    ([], [])

theorem mem_keys_partition (pred : String → Bool) (rel : String → String) :
    ∀ (files : List (String × String)) (P A : List (String × String)) (k : String),
      (k ∈ jsKeys (files.foldl (partitionStep pred rel) (P, A)).1 ↔
        k ∈ jsKeys P ∨ ∃ e ∈ files, pred e.1 = true ∧ k = rel e.1) ∧
      (k ∈ jsKeys (files.foldl (partitionStep pred rel) (P, A)).2 ↔
        k ∈ jsKeys A ∨ ∃ e ∈ files, pred e.1 = false ∧ k = rel e.1) := by
  intro files
  induction files with
  | nil => intro P A k; simp
  | cons e rest ih =>
      intro P A k
      simp only [List.foldl_cons, partitionStep]
      by_cases hp : pred e.1 = true
      · rw [if_pos hp]
        refine ⟨?_, ?_⟩
        · rw [(ih _ _ k).1, mem_jsKeys_jsUpdate]
          simp only [List.mem_cons]
          constructor
          · rintro ((h | h) | ⟨e', he', hpe, hk⟩)
            · exact Or.inl h
            · exact Or.inr ⟨e, Or.inl rfl, hp, h⟩
            · exact Or.inr ⟨e', Or.inr he', hpe, hk⟩
          · rintro (h | ⟨e', (rfl | he'), hpe, hk⟩)
            · exact Or.inl (Or.inl h)
            · exact Or.inl (Or.inr hk)
            · exact Or.inr ⟨e', he', hpe, hk⟩
        · rw [(ih _ _ k).2]
          simp only [List.mem_cons]
          constructor
          · rintro (h | ⟨e', he', hpe, hk⟩)
            · exact Or.inl h
            · exact Or.inr ⟨e', Or.inr he', hpe, hk⟩
          · rintro (h | ⟨e', (rfl | he'), hpe, hk⟩)
            · exact Or.inl h
            · exact absurd hp (by simp [hpe])
            · exact Or.inr ⟨e', he', hpe, hk⟩
      · rw [if_neg hp]
        have hp' : pred e.1 = false := by simpa using hp
        refine ⟨?_, ?_⟩
        · rw [(ih _ _ k).1]
          simp only [List.mem_cons]
          constructor
          · rintro (h | ⟨e', he', hpe, hk⟩)
            · exact Or.inl h
            · exact Or.inr ⟨e', Or.inr he', hpe, hk⟩
          · rintro (h | ⟨e', (rfl | he'), hpe, hk⟩)
            · exact Or.inl h
            · exact absurd hpe (by simp [hp'])
            · exact Or.inr ⟨e', he', hpe, hk⟩
        · rw [(ih _ _ k).2, mem_jsKeys_jsUpdate]
          simp only [List.mem_cons]
          constructor
          · rintro ((h | h) | ⟨e', he', hpe, hk⟩)
            · exact Or.inl h
            · exact Or.inr ⟨e, Or.inl rfl, hp', h⟩
            · exact Or.inr ⟨e', Or.inr he', hpe, hk⟩
          · rintro (h | ⟨e', (rfl | he'), hpe, hk⟩)
            · exact Or.inl (Or.inl h)
            · exact Or.inl (Or.inr hk)
            · exact Or.inr ⟨e', he', hpe, hk⟩

theorem any_filter_beq {l : List String} {f : String} (hf : f ∈ l) (p : String → Bool) :
    (l.filter p).any (fun x => x == f) = p f := by
  by_cases hp : p f = true
  · rw [hp]
    rw [List.any_eq_true]
    exact ⟨f, List.mem_filter.mpr ⟨hf, hp⟩, by simp⟩
  · have hp' : p f = false := by simpa using hp
    rw [hp']
    rw [List.any_eq_false]
    intro x hx
    intro hbeq
    have hxf : x = f := by simpa using hbeq
    subst hxf
    exact hp (List.mem_filter.mp hx).2

theorem replaceFirstAux_of_startsWith {pat : List Char} (repl : List Char) {s : List Char}
    (hne : pat ≠ []) (hpre : pat.isPrefixOf s = true) :
    replaceFirstAux pat repl s = repl ++ s.drop pat.length := by
  cases s with
  | nil =>
      rw [List.isPrefixOf_iff_prefix] at hpre
      exact absurd (List.prefix_nil.mp hpre) hne
  | cons c rest => simp [replaceFirstAux, hpre]

theorem relativeSitePath_of_startsWith {hostname k : String}
    (h : jsStartsWith k (hostname ++ "/") = true) :
    relativeSitePath hostname k = ⟨'/' :: k.data.drop (hostname ++ "/").data.length⟩ := by
  unfold relativeSitePath jsReplaceFirst
  have hne : (hostname ++ "/").data ≠ [] := by
    rw [String.data_append]
    simp
  rw [if_neg (by simp [hne])]
  unfold jsStartsWith at h
  rw [replaceFirstAux_of_startsWith _ hne h]
  rfl

theorem relativeSitePath_inj {hostname k₁ k₂ : String}
    (h₁ : jsStartsWith k₁ (hostname ++ "/") = true)
    (h₂ : jsStartsWith k₂ (hostname ++ "/") = true)
    (h : relativeSitePath hostname k₁ = relativeSitePath hostname k₂) : k₁ = k₂ := by
  rw [relativeSitePath_of_startsWith h₁, relativeSitePath_of_startsWith h₂] at h
  have hdrop : k₁.data.drop (hostname ++ "/").data.length =
      k₂.data.drop (hostname ++ "/").data.length := by
    have := congrArg String.data h
    simpa using this
  unfold jsStartsWith at h₁ h₂
  rw [List.isPrefixOf_iff_prefix] at h₁ h₂
  obtain ⟨t₁, ht₁⟩ := h₁
  obtain ⟨t₂, ht₂⟩ := h₂
  rw [← ht₁, ← ht₂, List.drop_left, List.drop_left] at hdrop
  have : k₁.data = k₂.data := by rw [← ht₁, ← ht₂, hdrop]
  cases k₁; cases k₂; exact congrArg String.mk this

/-- Claim C10 (confirmed): provided every retrieved key carries the
`hostname/` prefix, `getSiteContent` sends each file to exactly one of the two
returned maps — to `pages` precisely when its key ends in `.html`/`.htm` and
to `assets` otherwise (so a `manifest.json` key lands in `assets`, the unused
`assetFiles` filter notwithstanding), and the two key sets are disjoint and
together cover every listed file. -/
theorem getSiteContent_partitions (hostname : String) (files : List (String × String))
    (hpre : ∀ e ∈ files, jsStartsWith e.1 (hostname ++ "/") = true) :
    ∀ e ∈ files,
      (isPageFileKey e.1 = true →
        relativeSitePath hostname e.1 ∈ jsKeys (getSiteContent hostname files).1 ∧
          relativeSitePath hostname e.1 ∉ jsKeys (getSiteContent hostname files).2) ∧
      (isPageFileKey e.1 = false →
        relativeSitePath hostname e.1 ∈ jsKeys (getSiteContent hostname files).2 ∧
          relativeSitePath hostname e.1 ∉ jsKeys (getSiteContent hostname files).1) := by
  intro e he
  have hmem := mem_keys_partition
    (fun f => ((files.map Prod.fst).filter isPageFileKey).any (fun pf => pf == f))
    (relativeSitePath hostname) files [] [] (relativeSitePath hostname e.1)
  have hpred : ∀ e' ∈ files,
      ((files.map Prod.fst).filter isPageFileKey).any (fun pf => pf == e'.1) =
        isPageFileKey e'.1 := by
    intro e' he'
    exact any_filter_beq (List.mem_map_of_mem Prod.fst he') isPageFileKey
  constructor
  · intro hpage
    constructor
    · exact hmem.1.mpr (Or.inr ⟨e, he, by rw [hpred e he]; exact hpage, rfl⟩)
    · intro hmem2
      rcases hmem.2.mp hmem2 with h | ⟨e', he', hpe, hk⟩
      · simp [jsKeys] at h
      · have := relativeSitePath_inj (hpre e he) (hpre e' he') hk
        rw [hpred e' he', ← this, hpage] at hpe
        exact absurd hpe (by simp)
  · intro hasset
    constructor
    · exact hmem.2.mpr (Or.inr ⟨e, he, by rw [hpred e he, hasset], rfl⟩)
    · intro hmem1
      rcases hmem.1.mp hmem1 with h | ⟨e', he', hpe, hk⟩
      · simp [jsKeys] at h
      · have := relativeSitePath_inj (hpre e he) (hpre e' he') hk
        rw [hpred e' he', ← this, hasset] at hpe
        exact absurd hpe (by simp)

/-- Witness for C10: a concrete three-file listing (a page, an image, and the
`manifest.json`) under the prefix `example.com/`; the page lands in `pages`
only, and the manifest lands in `assets` only. -/
theorem getSiteContent_partitions_witness :
    (∀ e ∈ [("example.com/index.html", "<html></html>"), ("example.com/img/a.png", "PNG"),
        ("example.com/manifest.json", "jsondata")],
      jsStartsWith e.1 ("example.com" ++ "/") = true) ∧
      ("example.com/index.html", "<html></html>") ∈
        [("example.com/index.html", "<html></html>"), ("example.com/img/a.png", "PNG"),
          ("example.com/manifest.json", "jsondata")] ∧
      isPageFileKey "example.com/index.html" = true ∧
      relativeSitePath "example.com" "example.com/index.html" ∈
        jsKeys (getSiteContent "example.com"
          [("example.com/index.html", "<html></html>"), ("example.com/img/a.png", "PNG"),
            ("example.com/manifest.json", "jsondata")]).1 := by
  refine ⟨by decide, by decide, by decide, ?_⟩
  exact ((getSiteContent_partitions "example.com"
      [("example.com/index.html", "<html></html>"), ("example.com/img/a.png", "PNG"),
        ("example.com/manifest.json", "jsondata")] (by decide)
      ("example.com/index.html", "<html></html>") (by decide)).1 (by decide)).1

/-! ## Path variations (`generatePathVariations`, earlier deployer iteration) -/

/-- `path.replace(/\/+/g, '/')`: collapse every run of slashes to a single
slash. The boolean records whether the previous character was a slash. -/
def collapseSlashesAux : List Char → Bool → List Char
  | [], _ => []
  | c :: rest, prevSlash =>
      if c = '/' then
        if prevSlash then collapseSlashesAux rest true
        else c :: collapseSlashesAux rest true
      else c :: collapseSlashesAux rest false

/-- Slash-collapse normalization applied first by `generatePathVariations`. -/
def collapseSlashes (s : String) : String := ⟨collapseSlashesAux s.data false⟩

/-- `Set.add` on an insertion-ordered list: appends when absent. -/
def addVar (l : List String) (s : String) : List String :=
  if s ∈ l then l else l ++ [s]

/-- Leading-slash block of `generatePathVariations`: the variant without the
leading slash when the normalized path carries one. -/
def gpvWithoutLead (np : String) (vs : List String) : List String :=
  if jsStartsWith np "/" then addVar vs (jsDrop np 1) else vs

/-- Leading-slash block of `generatePathVariations`: the variant with a
leading slash when the normalized path lacks one. -/
def gpvWithLead (np : String) (vs : List String) : List String :=
  if !jsStartsWith np "/" then addVar vs ("/" ++ np) else vs

/-- `.html` block of `generatePathVariations`: extensionless variants (with
and without leading slash) for `.html` files. -/
def gpvHtml (np : String) (vs : List String) : List String :=
  if jsEndsWith np ".html" then
    let withoutExt := jsDropRight np 5
    let vs := addVar vs withoutExt
    let vs := if jsStartsWith withoutExt "/" then addVar vs (jsDrop withoutExt 1) else vs
    if !jsStartsWith withoutExt "/" then addVar vs ("/" ++ withoutExt) else vs
  else vs

/-- `index.html` block of `generatePathVariations`: the owning directory in
its four slash forms. -/
def gpvIndex (np : String) (vs : List String) : List String :=
  if jsEndsWith np "/index.html" then
    let dirPath := jsReplaceFirst np "/index.html" "/"
    let vs := addVar vs dirPath
    let vs := addVar vs (jsDropRight dirPath 1)
    if dirPath ≠ "/" then
      addVar (addVar vs (jsDrop dirPath 1)) (jsDropRight (jsDrop dirPath 1) 1)
    else vs
  else vs

/-- Extensionless-root block of `generatePathVariations`: `.html` variants for
root names without a dot or slash. -/
def gpvRootNoExt (np : String) (vs : List String) : List String :=
  if !jsIncludes np "." && !jsIncludes np "/" then
    addVar (addVar vs (np ++ ".html")) ("/" ++ np ++ ".html")
  else vs

/-- `generatePathVariations` from the earlier deployer iteration: every
canonical key a reference might use for a stored path — with/without leading
slash, with/without `.html`, directory forms for `index.html` files, and an
`.html` variant for extensionless root names. The accumulated set starts from
the slash-collapsed path and each block conditionally appends its variants. -/
def generatePathVariations (path : String) : List String :=
  let np := collapseSlashes path
  gpvRootNoExt np (gpvIndex np (gpvHtml np (gpvWithLead np (gpvWithoutLead np (addVar [] np)))))

theorem mem_addVar_of_mem {x : String} {l : List String} (s : String) (h : x ∈ l) :
    x ∈ addVar l s := by
  unfold addVar
  split
  · exact h
  · exact List.mem_append_left _ h

theorem self_mem_addVar (l : List String) (s : String) : s ∈ addVar l s := by
  unfold addVar
  split
  · assumption
  · exact List.mem_append_right _ (List.mem_singleton.mpr rfl)

theorem mem_gpvWithoutLead {x np : String} {vs : List String} (h : x ∈ vs) :
    x ∈ gpvWithoutLead np vs := by
  unfold gpvWithoutLead
  split
  · exact mem_addVar_of_mem _ h
  · exact h

theorem mem_gpvWithLead {x np : String} {vs : List String} (h : x ∈ vs) :
    x ∈ gpvWithLead np vs := by
  unfold gpvWithLead
  split
  · exact mem_addVar_of_mem _ h
  · exact h

theorem mem_gpvHtml {x np : String} {vs : List String} (h : x ∈ vs) :
    x ∈ gpvHtml np vs := by
  unfold gpvHtml
  split
  · dsimp only
    split <;> split <;>
      · repeat
          first
          | exact h
          | apply mem_addVar_of_mem
  · exact h

theorem mem_gpvIndex {x np : String} {vs : List String} (h : x ∈ vs) :
    x ∈ gpvIndex np vs := by
  unfold gpvIndex
  split
  · dsimp only
    split <;>
      · repeat
          first
          | exact h
          | apply mem_addVar_of_mem
  · exact h

theorem mem_gpvRootNoExt {x np : String} {vs : List String} (h : x ∈ vs) :
    x ∈ gpvRootNoExt np vs := by
  unfold gpvRootNoExt
  split
  · exact mem_addVar_of_mem _ (mem_addVar_of_mem _ h)
  · exact h

/-- Claim C8 (corrected), counterexample: the variation set is seeded with the
slash-collapsed path, not the original, so a stored path containing a double
slash is not among its own variants: `a//b ∉ Variants(a//b)`. -/
theorem generatePathVariations_self_counterexample :
    "a//b" ∉ generatePathVariations "a//b" ∧
      generatePathVariations "a//b" = ["a/b", "/a/b"] := by
  constructor
  · decide
  · decide

/-- Claim C8 (amended): for every stored path already in slash-collapsed form
(no run of repeated slashes), the path is among its own generated variants:
`p ∈ Variants(p)`. -/
theorem generatePathVariations_self_mem (p : String) (h : collapseSlashes p = p) :
    p ∈ generatePathVariations p := by
  unfold generatePathVariations
  rw [h]
  exact mem_gpvRootNoExt (mem_gpvIndex (mem_gpvHtml (mem_gpvWithLead
    (mem_gpvWithoutLead (self_mem_addVar [] p)))))

/-- Witness for C8: the stored path `/guide/index.html` is slash-collapsed and
appears among its own variants. -/
theorem generatePathVariations_self_mem_witness :
    collapseSlashes "/guide/index.html" = "/guide/index.html" ∧
      "/guide/index.html" ∈ generatePathVariations "/guide/index.html" :=
  ⟨by decide, generatePathVariations_self_mem "/guide/index.html" (by decide)⟩

/-! ## Crawler (`crawlAndSave`, src/service/extract.ts)

The browser fetch, the cheerio link/asset extraction and the filesystem are
oracles supplied in the environment; the loop structure, the skip conditions,
the duplicate-hash check and the queue/visited bookkeeping are the embedded
code. -/

/-- Result of `page.goto`: an exception (caught by the outer handler), a null
response, or a response with status and rendered content. -/
inductive FetchResult where
  | fail
  | noResponse
  | resp (status : Nat) (content : String)
  deriving Repr, DecidableEq

/-- Environment of one crawl run. `web` is the rendering backend;
`pageLinks content url` are the same-domain `<a href>` plus navigation-menu
links cheerio extracts from the rendered content; `pageAssets` likewise for
asset references; `docLinks` are the fixed conventional documentation paths
resolved against the start URL; `readSaved` is `fs.readFile` of a temp path;
`hash` is the md5 content hash. -/
structure CrawlEnv where
  web : String → FetchResult
  pageLinks : String → String → List String
  pageAssets : String → String → List String
  docLinks : List String
  readSaved : String → Option String
  hash : String → String
  maxPages : Nat

/-- `url.replace(/^https?:\/\//, '')`. -/
def stripProtocol (url : String) : String :=
  if jsStartsWith url "https://" then jsDrop url 8
  else if jsStartsWith url "http://" then jsDrop url 7
  else url

/-- The S3 key computation of `crawlAndSave`: strip the protocol, then append
`index.html` to a trailing slash or `.html` to an extensionless last
component. -/
def s3KeyFor (url : String) : String :=
  let k := stripProtocol url
  if jsEndsWith k "/" then k ++ "index.html"
  else
    let filename := (jsSplitChar k '/').getLastD k
    if !jsIncludes filename "." then k ++ ".html" else k

/-- `savedS3Key.replace(/[^a-zA-Z0-9._-]/g, '_')`. -/
def sanitizeTempChar (c : Char) : Char :=
  if ('a' ≤ c ∧ c ≤ 'z') ∨ ('A' ≤ c ∧ c ≤ 'Z') ∨ ('0' ≤ c ∧ c ≤ '9') ∨
      c = '.' ∨ c = '_' ∨ c = '-' then c
  else '_'

/-- The `temp/...` path read back during the duplicate check. -/
def tempPathFor (url : String) : String :=
  "temp/" ++ ⟨(s3KeyFor url).data.map sanitizeTempChar⟩

/-- The error-content indicators of `crawlAndSave`. -/
def isErrorContent (content : String) : Bool :=
  jsIncludes content "<h1 id=\"_top\" data-page-title=\"\" class=\"astro-jbfsktt5\">404</h1>" ||
    jsIncludes content "Page not found" ||
    jsIncludes content "<Code>AccessDenied</Code>" ||
    jsIncludes content "<Message>Access Denied</Message>"

/-- The duplicate-content check of `crawlAndSave`: the rendered content's hash
is compared against the hash of each previously saved page's content, read
back from its temp path (read failures are caught and ignored). -/
def isDuplicate (env : CrawlEnv) (savedPages : List String) (content : String) : Bool :=
  savedPages.any fun savedUrl =>
    match env.readSaved (tempPathFor savedUrl) with
    | some savedContent => env.hash content == env.hash savedContent
    | none => false

/-- State of the crawl loop: the FIFO `queue`, the `visited` set, the saved
page URLs and the discovered asset URLs (both in insertion order). -/
structure CrawlState where
  queue : List String
  visited : List String
  savedPages : List String
  assetQueue : List String
  deriving Repr, DecidableEq

/-- The crawl loop of `crawlAndSave`, fuel-indexed. Each iteration pops the
queue head; revisits are dropped; fetch failures, error statuses (>= 400 or no
response), recognized error pages and duplicate-hash pages are skipped with
the page unrecorded; otherwise the page is saved, its assets are added to the
asset set, and its first ten unvisited outbound links are appended to the
queue. The loop stops on an empty queue or once `maxPages` pages are saved. -/
def crawl (env : CrawlEnv) : Nat → CrawlState → CrawlState
  | 0, s => s
  | fuel + 1, s =>
      match s.queue with
      | [] => s
      | u :: rest =>
          if s.savedPages.length < env.maxPages then
            if u ∈ s.visited then crawl env fuel { s with queue := rest }
            else
              match env.web u with
              | FetchResult.fail =>
                  crawl env fuel { s with queue := rest, visited := s.visited ++ [u] }
              | FetchResult.noResponse =>
                  crawl env fuel { s with queue := rest, visited := s.visited ++ [u] }
              | FetchResult.resp status content =>
                  if 400 ≤ status then
                    crawl env fuel { s with queue := rest, visited := s.visited ++ [u] }
                  else if isErrorContent content then
                    crawl env fuel { s with queue := rest, visited := s.visited ++ [u] }
                  else if isDuplicate env s.savedPages content then
                    crawl env fuel { s with queue := rest, visited := s.visited ++ [u] }
                  else
                    crawl env fuel
                      { queue := rest ++
                          ((env.pageLinks content u ++ env.docLinks).filter
                            (fun l => !((s.visited ++ [u]).contains l))).take 10
                        visited := s.visited ++ [u]
                        savedPages := s.savedPages ++ [u]
                        assetQueue := (env.pageAssets content u).foldl addVar s.assetQueue }
          else s

/-- A dequeued URL counts as an error fetch when navigation throws, the
response is null, the status is >= 400, or the content matches an error-page
signature. -/
def errorFetchB (env : CrawlEnv) (u : String) : Bool :=
  match env.web u with
  | FetchResult.fail => true
  | FetchResult.noResponse => true
  | FetchResult.resp status content => decide (400 ≤ status) || isErrorContent content

theorem crawl_not_saved (env : CrawlEnv) {u : String} (herr : errorFetchB env u = true) :
    ∀ (fuel : Nat) (s : CrawlState), u ∉ s.savedPages → u ∉ (crawl env fuel s).savedPages := by
  intro fuel
  induction fuel with
  | zero => intro s h; exact h
  | succ fuel ih =>
      intro s h
      rw [crawl]
      cases hq : s.queue with
      | nil => exact h
      | cons v rest =>
          dsimp only
          by_cases hmax : s.savedPages.length < env.maxPages
          · rw [if_pos hmax]
            by_cases hv : v ∈ s.visited
            · rw [if_pos hv]
              exact ih _ h
            · rw [if_neg hv]
              cases hw : env.web v with
              | fail => exact ih _ h
              | noResponse => exact ih _ h
              | resp status content =>
                  dsimp only
                  by_cases hst : 400 ≤ status
                  · rw [if_pos hst]
                    exact ih _ h
                  · rw [if_neg hst]
                    by_cases hec : isErrorContent content = true
                    · rw [if_pos hec]
                      exact ih _ h
                    · rw [if_neg hec]
                      by_cases hdup : isDuplicate env s.savedPages content = true
                      · rw [if_pos hdup]
                        exact ih _ h
                      · rw [if_neg hdup]
                        apply ih
                        intro hmem
                        rcases List.mem_append.mp hmem with hm | hm
                        · exact h hm
                        · have huv : u = v := List.mem_singleton.mp hm
                          subst huv
                          unfold errorFetchB at herr
                          rw [hw] at herr
                          rcases Bool.or_eq_true_iff.mp herr with hd | he
                          · exact hst (of_decide_eq_true hd)
                          · exact hec he
          · rw [if_neg hmax]
            exact h

/-- Claim C9 (confirmed): a dequeued unvisited URL whose fetch yields no
response, a status >= 400, or recognized error content is skipped — the crawl
state advances exactly to the remaining queue with the URL merely marked
visited (so every remaining queued URL is still processed) — and the URL is
never stored among the saved pages. -/
theorem crawl_error_page_skipped (env : CrawlEnv) (fuel : Nat) (s : CrawlState)
    (u : String) (rest : List String)
    (hq : s.queue = u :: rest)
    (hmax : s.savedPages.length < env.maxPages)
    (hv : u ∉ s.visited)
    (herr : errorFetchB env u = true)
    (hsaved : u ∉ s.savedPages) :
    crawl env (fuel + 1) s =
        crawl env fuel { s with queue := rest, visited := s.visited ++ [u] } ∧
      u ∉ (crawl env (fuel + 1) s).savedPages := by
  have hstep : crawl env (fuel + 1) s =
      crawl env fuel { s with queue := rest, visited := s.visited ++ [u] } := by
    rw [crawl, hq]
    dsimp only
    rw [if_pos hmax, if_neg hv]
    cases hw : env.web u with
    | fail => rfl
    | noResponse => rfl
    | resp status content =>
        dsimp only
        unfold errorFetchB at herr
        rw [hw] at herr
        by_cases hst : 400 ≤ status
        · rw [if_pos hst]
        · rw [if_neg hst]
          have hec : isErrorContent content = true := by
            rcases Bool.or_eq_true_iff.mp herr with hd | he
            · exact absurd (of_decide_eq_true hd) hst
            · exact he
          rw [if_pos hec]
  refine ⟨hstep, ?_⟩
  rw [hstep]
  exact crawl_not_saved env herr fuel _ hsaved

/-- Crawl environment of the C9 witness: one seeded URL answering HTTP 404 and
one answering HTTP 200. -/
def errorPageEnv : CrawlEnv :=
  { web := fun u =>
      if u = "https://site.test/bad" then FetchResult.resp 404 "not here"
      else FetchResult.resp 200 "fine"
    pageLinks := fun _ _ => []
    pageAssets := fun _ _ => []
    docLinks := []
    readSaved := fun _ => none
    hash := fun c => c
    maxPages := 10 }

/-- Witness for C9: in the concrete two-URL crawl the 404 URL is never stored
while the remaining queued URL is still crawled and saved. -/
theorem crawl_error_page_skipped_witness :
    "https://site.test/bad" ∉
        (crawl errorPageEnv 3
          ⟨["https://site.test/bad", "https://site.test/ok"], [], [], []⟩).savedPages ∧
      (crawl errorPageEnv 3
          ⟨["https://site.test/bad", "https://site.test/ok"], [], [], []⟩).savedPages =
        ["https://site.test/ok"] :=
  ⟨(crawl_error_page_skipped errorPageEnv 2
      ⟨["https://site.test/bad", "https://site.test/ok"], [], [], []⟩
      "https://site.test/bad" ["https://site.test/ok"] rfl (by decide) (by decide)
      (by decide) (by decide)).2,
    by decide⟩

/-- Claim C3 (corrected), amended part: when a fetched document's content hash
matches a previously saved page, the crawler skips the document entirely — it
is not stored and, unlike what the claim states, its outbound links are
neither extracted nor enqueued; the loop simply continues with the remaining
queue and the URL marked visited. -/
theorem crawl_duplicate_skips_entirely (env : CrawlEnv) (fuel : Nat) (s : CrawlState)
    (u : String) (rest : List String) (status : Nat) (content : String)
    (hq : s.queue = u :: rest)
    (hmax : s.savedPages.length < env.maxPages)
    (hv : u ∉ s.visited)
    (hw : env.web u = FetchResult.resp status content)
    (hst : ¬400 ≤ status)
    (hec : isErrorContent content = false)
    (hdup : isDuplicate env s.savedPages content = true) :
    crawl env (fuel + 1) s =
      crawl env fuel { s with queue := rest, visited := s.visited ++ [u] } := by
  rw [crawl, hq]
  dsimp only
  rw [if_pos hmax, if_neg hv, hw]
  dsimp only
  rw [if_neg hst, if_neg (by simp [hec]), if_pos hdup]

/-- Crawl environment of the C3 counterexample: the root and `/about` render
identical content (the root's copy is readable back from its temp path), and
`/about`'s rendered content links onward to `/contact`. -/
def dupSiteEnv : CrawlEnv :=
  { web := fun u =>
      if u = "https://site.test/" then FetchResult.resp 200 "<html>X</html>"
      else if u = "https://site.test/about" then FetchResult.resp 200 "<html>X</html>"
      else if u = "https://site.test/contact" then FetchResult.resp 200 "<html>Z</html>"
      else FetchResult.noResponse
    pageLinks := fun _ u =>
      if u = "https://site.test/" then ["https://site.test/about"]
      else if u = "https://site.test/about" then ["https://site.test/contact"]
      else []
    pageAssets := fun _ _ => []
    docLinks := []
    readSaved := fun p =>
      if p = "temp/site.test_index.html" then some "<html>X</html>" else none
    hash := fun c => c
    maxPages := 10 }

/-- Claim C3 (corrected), counterexample: crawling the duplicate site, the
duplicate `/about` page is skipped without its links being enqueued — the
onward link `/contact` is never visited, queued or saved, so the duplicate's
outbound links are not traversed. -/
theorem crawl_duplicate_drops_links_counterexample :
    crawl dupSiteEnv 6 ⟨["https://site.test/"], [], [], []⟩ =
        ⟨[], ["https://site.test/", "https://site.test/about"], ["https://site.test/"], []⟩ ∧
      "https://site.test/contact" ∉
        (crawl dupSiteEnv 6 ⟨["https://site.test/"], [], [], []⟩).visited := by
  constructor
  · decide
  · decide

/-- Witness for C3: the duplicate-skip equation applied at the crawl state
reached after the root page of the duplicate site was saved. -/
theorem crawl_duplicate_skips_entirely_witness :
    crawl dupSiteEnv 2
        ⟨["https://site.test/about"], ["https://site.test/"], ["https://site.test/"], []⟩ =
      crawl dupSiteEnv 1
        ⟨[], ["https://site.test/", "https://site.test/about"], ["https://site.test/"], []⟩ :=
  crawl_duplicate_skips_entirely dupSiteEnv 1
    ⟨["https://site.test/about"], ["https://site.test/"], ["https://site.test/"], []⟩
    "https://site.test/about" [] 200 "<html>X</html>" rfl (by decide) (by decide)
    (by decide) (by decide) (by decide) (by decide)
